import Mathlib

/-!
Verification of the superjob auto-apply client (`superjob_auth.py`).

The Python source is shallowly embedded: JSON values become an inductive
type, Python dict access with its exception behaviour becomes an
`Except Unit` computation whose failures are caught exactly where the
source catches them, network and file effects become explicit oracles and
event traces, and the search-and-apply driver becomes a pure fold over the
oracles.  All definitions follow the source line by line; the theorems at
the end settle the specification claims against them.
-/

/-- JSON values as handled by the Python code (dicts are association
lists in insertion order, which is how Python preserves them). -/
inductive Json where
  | null
  | str (s : String)
  | num (n : Int)
  | bool (b : Bool)
  | arr (elems : List Json)
  | obj (fields : List (String × Json))
deriving Repr

mutual

/-- Structural equality of JSON values, mirroring the `==` tests the
source performs on strings and ids. -/
def jeq : Json → Json → Bool
  | .null, .null => true
  | .str a, .str b => a == b
  | .num a, .num b => a == b
  | .bool a, .bool b => a == b
  | .arr xs, .arr ys => jeqList xs ys
  | .obj xs, .obj ys => jeqFields xs ys
  | _, _ => false

/-- Elementwise equality of JSON arrays. -/
def jeqList : List Json → List Json → Bool
  | [], [] => true
  | x :: xs, y :: ys => jeq x y && jeqList xs ys
  | _, _ => false

/-- Pairwise equality of JSON object fields. -/
def jeqFields : List (String × Json) → List (String × Json) → Bool
  | [], [] => true
  | (k, x) :: xs, (l, y) :: ys => k == l && jeq x y && jeqFields xs ys
  | _, _ => false

end

mutual

/-- `jeq` is reflexive. -/
def jeqRefl : (a : Json) → jeq a a = true
  | .null => by simp [jeq]
  | .str a => by simp [jeq]
  | .num a => by simp [jeq]
  | .bool a => by simp [jeq]
  | .arr xs => by simp [jeq, jeqListRefl xs]
  | .obj xs => by simp [jeq, jeqFieldsRefl xs]

/-- `jeqList` is reflexive. -/
def jeqListRefl : (l : List Json) → jeqList l l = true
  | [] => by simp [jeqList]
  | x :: xs => by simp [jeqList, jeqRefl x, jeqListRefl xs]

/-- `jeqFields` is reflexive. -/
def jeqFieldsRefl : (l : List (String × Json)) → jeqFields l l = true
  | [] => by simp [jeqFields]
  | (k, x) :: xs => by simp [jeqFields, jeqRefl x, jeqFieldsRefl xs]

end

mutual

/-- `jeq` implies equality. -/
def jeqEq : (a b : Json) → jeq a b = true → a = b
  | .null, .null, _ => rfl
  | .str a, .str b, h => by simp [jeq] at h; simp [h]
  | .num a, .num b, h => by simp [jeq] at h; simp [h]
  | .bool a, .bool b, h => by simp [jeq] at h; simp [h]
  | .arr xs, .arr ys, h => by
      rw [jeqListEq xs ys (by simpa [jeq] using h)]
  | .obj xs, .obj ys, h => by
      rw [jeqFieldsEq xs ys (by simpa [jeq] using h)]
  | .null, .str _, h => by simp [jeq] at h
  | .null, .num _, h => by simp [jeq] at h
  | .null, .bool _, h => by simp [jeq] at h
  | .null, .arr _, h => by simp [jeq] at h
  | .null, .obj _, h => by simp [jeq] at h
  | .str _, .null, h => by simp [jeq] at h
  | .str _, .num _, h => by simp [jeq] at h
  | .str _, .bool _, h => by simp [jeq] at h
  | .str _, .arr _, h => by simp [jeq] at h
  | .str _, .obj _, h => by simp [jeq] at h
  | .num _, .null, h => by simp [jeq] at h
  | .num _, .str _, h => by simp [jeq] at h
  | .num _, .bool _, h => by simp [jeq] at h
  | .num _, .arr _, h => by simp [jeq] at h
  | .num _, .obj _, h => by simp [jeq] at h
  | .bool _, .null, h => by simp [jeq] at h
  | .bool _, .str _, h => by simp [jeq] at h
  | .bool _, .num _, h => by simp [jeq] at h
  | .bool _, .arr _, h => by simp [jeq] at h
  | .bool _, .obj _, h => by simp [jeq] at h
  | .arr _, .null, h => by simp [jeq] at h
  | .arr _, .str _, h => by simp [jeq] at h
  | .arr _, .num _, h => by simp [jeq] at h
  | .arr _, .bool _, h => by simp [jeq] at h
  | .arr _, .obj _, h => by simp [jeq] at h
  | .obj _, .null, h => by simp [jeq] at h
  | .obj _, .str _, h => by simp [jeq] at h
  | .obj _, .num _, h => by simp [jeq] at h
  | .obj _, .bool _, h => by simp [jeq] at h
  | .obj _, .arr _, h => by simp [jeq] at h

/-- `jeqList` implies equality. -/
def jeqListEq : (l m : List Json) → jeqList l m = true → l = m
  | [], [], _ => rfl
  | [], _ :: _, h => by simp [jeqList] at h
  | _ :: _, [], h => by simp [jeqList] at h
  | x :: xs, y :: ys, h => by
      have h' := h
      simp only [jeqList, Bool.and_eq_true] at h'
      rw [jeqEq x y h'.1, jeqListEq xs ys h'.2]

/-- `jeqFields` implies equality. -/
def jeqFieldsEq : (l m : List (String × Json)) → jeqFields l m = true → l = m
  | [], [], _ => rfl
  | [], _ :: _, h => by simp [jeqFields] at h
  | _ :: _, [], h => by simp [jeqFields] at h
  | (k, x) :: xs, (l, y) :: ys, h => by
      have h' := h
      simp only [jeqFields, Bool.and_eq_true, beq_iff_eq] at h'
      rw [h'.1.1, jeqEq x y h'.1.2, jeqFieldsEq xs ys h'.2]

end

instance : DecidableEq Json := fun a b =>
  if h : jeq a b = true then .isTrue (jeqEq a b h)
  else .isFalse (fun he => h (he ▸ jeqRefl a))

/-- Python truthiness of a JSON value (`None`, `""`, `0`, `[]`, `\x7b\x7d`
and `False` are falsy). -/
def truthy : Json → Bool
  | .null => false
  | .str s => s ≠ ""
  | .num n => n ≠ 0
  | .bool b => b
  | .arr xs => !xs.isEmpty
  | .obj fs => !fs.isEmpty

/-- Python `d.get(k, dflt)`: succeeds on a dict, raises (`AttributeError`)
on any non-dict receiver.  The raise is modelled as `Except.error`. -/
def jget (v : Json) (k : String) (dflt : Json) : Except Unit Json :=
  match v with
  | .obj fs => .ok ((fs.lookup k).getD dflt)
  | _ => .error ()

/-- Total lookup used in theorem statements: field of an object, `null`
otherwise. -/
def sGet (v : Json) (k : String) : Json :=
  match v with
  | .obj fs => (fs.lookup k).getD .null
  | _ => .null

/-- Whether a JSON value is an object. -/
def isObjB : Json → Bool
  | .obj _ => true
  | _ => false

/-- First loop of `_extract_chat_id`: scan `included` for an item whose
`type` is `"chat"` and return its `id` (which the source returns as-is,
even when absent, i.e. `None`). -/
def scanChat : List Json → Except Unit (Option Json)
  | [] => .ok none
  | item :: rest => do
    let t ← jget item "type" .null
    if t = Json.str "chat" then
      let i ← jget item "id" .null
      pure (some i)
    else
      scanChat rest

/-- The chained reads
`response.get("data", \x7b\x7d).get("relationships", \x7b\x7d)...` that
produce `vr_id` in `_extract_chat_id`. -/
def vrIdOf (response : Json) : Except Unit Json := do
  let data ← jget response "data" (.obj [])
  let rels ← jget data "relationships" (.obj [])
  let vro ← jget rels "vacancyResponse" (.obj [])
  let vrd ← jget vro "data" (.obj [])
  jget vrd "id" .null

/-- Second loop of `_extract_chat_id`: find the `included` item of type
`"vacancyResponse"` whose `id` equals `vr_id` and return its
`relationships.chat.data.id`. -/
def scanVr (vid : Json) : List Json → Except Unit (Option Json)
  | [] => .ok none
  | item :: rest => do
    let t ← jget item "type" .null
    if t = Json.str "vacancyResponse" then
      let i ← jget item "id" .null
      if i = vid then
        let rels ← jget item "relationships" (.obj [])
        let ch ← jget rels "chat" (.obj [])
        let cd ← jget ch "data" (.obj [])
        let ci ← jget cd "id" .null
        pure (some ci)
      else
        scanVr vid rest
    else
      scanVr vid rest

/-- Body of `_extract_chat_id` up to its `try`/`except`.  Iterating a
non-list `included` is modelled as a failure: in Python it either raises
at the first element (non-dict elements) or performs zero iterations and
then necessarily falls through to `return None` (the second loop iterates
the same empty iterable), so the observable result of `_extract_chat_id`
is `None` in every such case, exactly as here. -/
def extract_chat_id_core (response : Json) : Except Unit Json := do
  let included ← jget response "included" (.arr [])
  let items ← (match included with
    | .arr xs => Except.ok xs
    | _ => Except.error ())
  match ← scanChat items with
  | some i => pure i
  | none => do
    let vid ← vrIdOf response
    if truthy vid then
      match ← scanVr vid items with
      | some ci => pure ci
      | none => pure .null
    else
      pure .null

/-- `_extract_chat_id`: any exception inside is caught and yields `None`
(modelled as `Json.null`; the source distinguishes no further). -/
def extract_chat_id (response : Json) : Json :=
  match extract_chat_id_core response with
  | .ok v => v
  | .error _ => .null

/-! ## The authentication probe (`check_auth`) -/

/-- The response of the probe request, as far as `check_auth` reads it. -/
structure HttpResponse where
  status_code : Nat
  headers : List (String × String)
deriving DecidableEq, Repr

/-- `resp.headers.get(k, d)`. -/
def headerGet (hs : List (String × String)) (k : String) (d : String) : String :=
  (hs.lookup k).getD d

/-- Contiguous-subsequence test on lists of characters, used for the
Python `"login" in location` membership test. -/
def hasSub (needle : List Char) : List Char → Bool
  | [] => needle.isEmpty
  | c :: t => needle.isPrefixOf (c :: t) || hasSub needle t

/-- Python `pat in s` on strings. -/
def strHasSub (pat s : String) : Bool :=
  hasSub pat.toList s.toList

/-- `check_auth`: the probe GET of `/user/resume/` with
`allow_redirects=False`, abstracted over its outcome (`Except.error` is a
raised transport exception, caught by the source and logged). -/
def check_auth (probe : Except String HttpResponse) : Bool :=
  match probe with
  | .error _ => false
  | .ok resp =>
    if resp.status_code = 302 ∧ strHasSub "login" (headerGet resp.headers "Location" "") then
      false
    else
      resp.status_code = 200

/-! ## Cookie jar, cache events and the auth flows -/

/-- `requests` cookie-jar update for a fixed domain and path: replace the
value when the name is present, append otherwise.  Names are unique per
domain and path, so this agrees with the remove-then-add of
`RequestsCookieJar.set` as a name-to-value map.  The same function models
Python dict assignment in the cookie-file parser. -/
def setCookie : List (String × String) → String → String → List (String × String)
  | [], n, v => [(n, v)]
  | (k, w) :: rest, n, v =>
    if k == n then (n, v) :: rest else (k, w) :: setCookie rest n v

/-- The cookie dict built by `auth_with_cookies`, in Python insertion
order. -/
def cookieParams (uat sat sask geo geoConfirmed geoSet loginAuthType : String) :
    List (String × String) :=
  [("uat", uat), ("sat", sat), ("sask", sask), ("geo", geo),
   ("geoConfirmed", geoConfirmed), ("geoSet", geoSet),
   ("loginAuthType", loginAuthType), ("initialGeoConfirmationShow", "1")]

/-- Observable effects of the auth flows: a cache-file read, a browser
cookie-store extraction attempt, a validation probe (with its result),
and a cache-file write. -/
inductive Event where
  | cacheLoad
  | extractAttempt (browser : String)
  | probe (ok : Bool)
  | cacheSave (cookies : List (String × String))
deriving DecidableEq, Repr

/-- Session state threaded through the auth flows: the cookie jar, how
many probes were issued so far, and the event trace. -/
structure AuthState where
  jar : List (String × String)
  probeCount : Nat
  trace : List Event
deriving DecidableEq, Repr

/-- `auth_with_cookies`: injects the eight cookies into the session jar
and returns `check_auth()`.  The probe outcome is abstracted by the
oracle `probeRes`, indexed by how many probes were issued before. -/
def auth_with_cookies (probeRes : Nat → Bool)
    (uat sat sask geo geoConfirmed geoSet loginAuthType : String)
    (st : AuthState) : Bool × AuthState :=
  let jar := (cookieParams uat sat sask geo geoConfirmed geoSet loginAuthType).foldl
    (fun j p => setCookie j p.1 p.2) st.jar
  let ok := probeRes st.probeCount
  (ok, { jar := jar, probeCount := st.probeCount + 1, trace := st.trace ++ [.probe ok] })

/-- Environment for `auth_from_browser`: the cached cookie file (`none`
covers both a missing file and a swallowed read error), the per-browser
cookie-store extraction outcome, and the probe oracle. -/
structure BrowserEnv where
  cached : Option (List (String × String))
  extractRes : String → Except String (List (String × String))
  probeRes : Nat → Bool

/-- The three identity cookies are all present in a cookie dict. -/
def hasRequired (cookies : List (String × String)) : Bool :=
  ["uat", "sat", "sask"].all (fun k => (cookies.lookup k).isSome)

/-- `_auth_with_cached_cookies` (the `.cacheLoad` event is emitted by the
caller where `_load_cached_cookies` runs): an absent or empty cache, or
one missing a required cookie, fails without a probe; otherwise the
cached values are validated through `auth_with_cookies`. -/
def auth_with_cached_cookies (env : BrowserEnv) (st : AuthState) : Bool × AuthState :=
  match env.cached with
  | none => (false, st)
  | some cached =>
    if cached.isEmpty then (false, st)
    else if hasRequired cached then
      auth_with_cookies env.probeRes
        ((cached.lookup "uat").getD "")
        ((cached.lookup "sat").getD "")
        ((cached.lookup "sask").getD "")
        ((cached.lookup "geo").getD "1687")
        ((cached.lookup "geoConfirmed").getD "1")
        ((cached.lookup "geoSet").getD "1")
        ((cached.lookup "loginAuthType").getD "applicant") st
    else (false, st)

/-- The known browser adapters. -/
def knownBrowsers : List String := ["chrome", "firefox", "edge", "safari"]

/-- Adapter order: for `"auto"` the fixed list, otherwise the single
requested browser. -/
def browserOrder (browser : String) : List String :=
  if browser = "auto" then ["firefox", "chrome", "edge", "safari"] else [browser]

/-- The adapter loop of `auth_from_browser`: extract, check the required
cookies, validate, and persist to cache on the first success.  Extraction
errors and missing cookies record `last_error` (not modelled beyond the
`false` result) and continue. -/
def tryBrowsers (env : BrowserEnv) : List String → AuthState → Except String Bool × AuthState
  | [], st => (.ok false, st)
  | br :: rest, st =>
    let st1 := { st with trace := st.trace ++ [.extractAttempt br] }
    match env.extractRes br with
    | .error _ => tryBrowsers env rest st1
    | .ok cookies =>
      if hasRequired cookies then
        let (ok, st2) := auth_with_cookies env.probeRes
          ((cookies.lookup "uat").getD "")
          ((cookies.lookup "sat").getD "")
          ((cookies.lookup "sask").getD "")
          ((cookies.lookup "geo").getD "1687")
          ((cookies.lookup "geoConfirmed").getD "1")
          ((cookies.lookup "geoSet").getD "1")
          ((cookies.lookup "loginAuthType").getD "applicant") st1
        if ok then
          (.ok true, { st2 with trace := st2.trace ++ [.cacheSave cookies] })
        else
          tryBrowsers env rest st2
      else
        tryBrowsers env rest st1

/-- `auth_from_browser`: unless forced, try the cache first; then resolve
the adapter list (an unknown browser name raises `ValueError`, modelled
as `Except.error`) and run the adapter loop. -/
def auth_from_browser (env : BrowserEnv) (browser : String) (forceRefresh : Bool)
    (st0 : AuthState) : Except String Bool × AuthState :=
  let cacheStep :=
    if forceRefresh then (false, st0)
    else auth_with_cached_cookies env { st0 with trace := st0.trace ++ [.cacheLoad] }
  if cacheStep.1 then
    (.ok true, cacheStep.2)
  else if browser ≠ "auto" ∧ ¬ (browser ∈ knownBrowsers) then
    (.error "unknown browser", cacheStep.2)
  else
    tryBrowsers env (browserOrder browser) cacheStep.2

/-- Whitespace as removed by Python `str.strip` (the characters that
occur in cookie files). -/
def isSpaceChar (c : Char) : Bool :=
  c = ' ' ∨ c = '\t' ∨ c = '\n' ∨ c = '\r'

/-- Drop leading characters satisfying `p`. -/
def dropLeading (p : Char → Bool) : List Char → List Char
  | [] => []
  | c :: t => if p c then dropLeading p t else c :: t

/-- Python `str.strip` on a character list: drop whitespace at both
ends. -/
def trimChars (l : List Char) : List Char :=
  (dropLeading isSpaceChar (dropLeading isSpaceChar l.reverse).reverse)

/-- Python `s.split("=", 1)`: `none` when the string has no `=`
(the membership test `"=" in line`), otherwise the parts before and
after the first `=`. -/
def splitFirstEq : List Char → Option (List Char × List Char)
  | [] => none
  | c :: t =>
    if c = '=' then some ([], t)
    else
      match splitFirstEq t with
      | none => none
      | some (a, b) => some (c :: a, b)

/-- One line of the cookie-file parser in `auth_from_file`: strip, skip
lines that are empty or have no `=`, split on the first `=`, strip name
and value, and assign into the dict. -/
def parseCookieLine (acc : List (String × String)) (line : String) : List (String × String) :=
  let l := trimChars line.toList
  if l.isEmpty then acc
  else
    match splitFirstEq l with
    | none => acc
    | some (nm, vl) => setCookie acc ⟨trimChars nm⟩ ⟨trimChars vl⟩

/-- `auth_from_file`: parse the cookie file, raise `ValueError`
(`Except.error`) when a required cookie is missing, otherwise validate
through `auth_with_cookies`.  The error branch leaves the session state
untouched: no probe is issued. -/
def auth_from_file (probeRes : Nat → Bool) (lines : List String) (st : AuthState) :
    Except String Bool × AuthState :=
  let cookies := lines.foldl parseCookieLine []
  if hasRequired cookies then
    let (ok, st1) := auth_with_cookies probeRes
      ((cookies.lookup "uat").getD "")
      ((cookies.lookup "sat").getD "")
      ((cookies.lookup "sask").getD "")
      ((cookies.lookup "geo").getD "1687")
      ((cookies.lookup "geoConfirmed").getD "1")
      ((cookies.lookup "geoSet").getD "1")
      ((cookies.lookup "loginAuthType").getD "applicant") st
    (.ok ok, st1)
  else
    (.error "missing required cookies", st)

/-! ## Application submission (`apply_to_vacancy`) -/

/-- Environment of one `apply_to_vacancy` call: the POST outcome (status
code and parsed body; `Except.error` is a raised transport exception),
the outcome `send_message` would report, and the configured default
cover letter as it stands at call time. -/
structure ApplyEnv where
  resp : Except String (Nat × Json)
  sendSuccess : Bool
  configCoverLetter : String

/-- The result dict of `apply_to_vacancy`.  `chat_id` is kept as the raw
JSON value the source stores (possibly `null`); `cover_letter_sent` is
`none` when the key was never set. -/
structure ApplyResult where
  success : Bool
  status_code : Option Nat
  chat_id : Json
  chat_url : Option String
  cover_letter_sent : Option Bool
  error : Option String
deriving DecidableEq, Repr

/-- The chat URL interpolation `f"...?chatId=\x7bchat_id\x7d"`, rendered
for the string ids the API produces. -/
def chatUrlOf (cid : Json) : String :=
  "https://www.superjob.ru/chat/?chatId=" ++ (match cid with | .str s => s | _ => "")

/-- Python truthiness of the optional `cover_letter` argument
(`None` and `""` are falsy). -/
def coverTruthy : Option String → Bool
  | none => false
  | some s => s ≠ ""

/-- `apply_to_vacancy`, abstracted over the POST outcome.  Returns the
result dict together with the list of `send_message` invocations made
(chat id and message text). -/
def apply_to_vacancy (env : ApplyEnv) (cover_letter : Option String) :
    ApplyResult × List (Json × String) :=
  match env.resp with
  | .error e =>
    ({ success := false, status_code := none, chat_id := .null, chat_url := none,
       cover_letter_sent := none, error := some e }, [])
  | .ok (code, body) =>
    let succ : Bool := code = 200 ∨ code = 201
    let base : ApplyResult :=
      { success := succ, status_code := some code, chat_id := .null, chat_url := none,
        cover_letter_sent := none, error := none }
    if succ ∧ truthy body then
      let cid := extract_chat_id body
      let r1 := { base with
        chat_id := cid,
        chat_url := if truthy cid then some (chatUrlOf cid) else none }
      if truthy cid ∧ coverTruthy cover_letter then
        let letter := if cover_letter = some "default" then env.configCoverLetter
                      else cover_letter.getD ""
        ({ r1 with cover_letter_sent := some env.sendSuccess }, [(cid, letter)])
      else
        (r1, [])
    else
      (base, [])

/-! ## Search-and-apply driver (`auto_apply`) -/

/-- A vacancy as the driver reads it from a search result. -/
structure Vacancy where
  id : String
  title : String
  company : String
deriving DecidableEq, Repr

/-- One page of `search_vacancies` output: the reported total and the
reconstructed vacancy list. -/
structure SearchPage where
  total : Nat
  vacancies : List Vacancy
deriving DecidableEq, Repr

/-- The fields of an `apply_to_vacancy` result dict that the driver
reads (abstracted per vacancy id). -/
structure ApplyOutcome where
  success : Bool
  chat_url : Option String
  cover_letter_sent : Option Bool
  errorMsg : String
deriving DecidableEq, Repr

/-- One record of the `results` list. -/
structure Entry where
  vacancy_id : String
  title : String
  company : String
  success : Bool
  chat_url : Option String
  cover_letter_sent : Option Bool
  error : Option String
deriving DecidableEq, Repr

/-- The `stats` accumulator of `auto_apply`. -/
structure Stats where
  total_found : Nat
  applied : Nat
  failed : Nat
  skipped : Nat
  results : List Entry
deriving DecidableEq, Repr

/-- Driver state: the `applied_ids` set, the stats, and two traces kept
for the theorems: the ids passed to `apply_to_vacancy` in call order and
the ids whose occurrence was skipped, in order. -/
structure RunState where
  appliedIds : List String
  stats : Stats
  applyCalls : List String
  skipTrace : List String
deriving DecidableEq, Repr

/-- The per-keyword page loop of `auto_apply`, returning the accumulated
vacancies together with the list of page indices actually queried.  The
first argument is the remaining iterations of `range(max_pages)`. -/
def fetchFrom (search : Nat → SearchPage) (limit : Nat) : Nat → Nat → List Vacancy × List Nat
  | 0, _ => ([], [])
  | fuel + 1, page =>
    let r := search page
    if r.vacancies.isEmpty then ([], [page])
    else if page * limit + limit ≥ r.total then (r.vacancies, [page])
    else
      let rec' := fetchFrom search limit fuel (page + 1)
      (r.vacancies ++ rec'.1, page :: rec'.2)

/-- Pages 0 to `maxPages - 1` for one keyword. -/
def fetchPages (search : Nat → SearchPage) (limit maxPages : Nat) : List Vacancy × List Nat :=
  fetchFrom search limit maxPages 0

/-- The per-vacancy body of the driver loop: skip an already-applied id,
otherwise apply, update `applied`/`failed` and append the result
record. -/
def processVacancy (applyF : String → ApplyOutcome) (st : RunState) (v : Vacancy) : RunState :=
  if v.id ∈ st.appliedIds then
    { st with
      stats := { st.stats with skipped := st.stats.skipped + 1 },
      skipTrace := st.skipTrace ++ [v.id] }
  else
    let r := applyF v.id
    let entry : Entry :=
      { vacancy_id := v.id, title := v.title, company := v.company,
        success := r.success, chat_url := r.chat_url,
        cover_letter_sent := r.cover_letter_sent,
        error := if r.success then none else some r.errorMsg }
    let stats1 :=
      if r.success then { st.stats with applied := st.stats.applied + 1 }
      else { st.stats with failed := st.stats.failed + 1 }
    { appliedIds := v.id :: st.appliedIds,
      stats := { stats1 with results := stats1.results ++ [entry] },
      applyCalls := st.applyCalls ++ [v.id],
      skipTrace := st.skipTrace }

/-- The per-keyword body of the driver loop: fetch the pages, count them
into `total_found`, then process each vacancy. -/
def processKeyword (search : String → Nat → SearchPage) (applyF : String → ApplyOutcome)
    (limit maxPages : Nat) (st : RunState) (kw : String) : RunState :=
  let vs := (fetchPages (search kw) limit maxPages).1
  let st1 := { st with stats := { st.stats with total_found := st.stats.total_found + vs.length } }
  vs.foldl (processVacancy applyF) st1

/-- Result of `auto_apply`: either the error dict returned on missing
configuration, or the stats (with the two traces). -/
inductive RunResult where
  | configError (msg : String)
  | done (stats : Stats) (applyCalls : List String) (skipTrace : List String)
deriving DecidableEq, Repr

/-- The empty starting state of a run. -/
def initialRunState : RunState :=
  { appliedIds := [], stats := ⟨0, 0, 0, 0, []⟩, applyCalls := [], skipTrace := [] }

/-- `auto_apply`, abstracted over the search results (per keyword and
page index; the source passes `offset = page * limit`) and the
apply outcome per vacancy id.  The arguments are the values after the
`or`-defaulting against the configuration. -/
def auto_apply (search : String → Nat → SearchPage) (applyF : String → ApplyOutcome)
    (keywords : List String) (limit maxPages : Nat) (resumeId : String) : RunResult :=
  if keywords.isEmpty then .configError "no keywords"
  else if resumeId = "" then .configError "no resume id"
  else
    let fin := keywords.foldl (processKeyword search applyF limit maxPages) initialRunState
    .done fin.stats fin.applyCalls fin.skipTrace

/-- All vacancy-id occurrences fetched over a whole run, keyword by
keyword in driver order. -/
def occurrenceIds (search : String → Nat → SearchPage) (limit maxPages : Nat)
    (keywords : List String) : List String :=
  (keywords.map (fun kw => ((fetchPages (search kw) limit maxPages).1).map Vacancy.id)).flatten

/-! ## Trace predicates and scenario inputs used by the theorems -/

/-- Whether an event is a cache write. -/
def isSave : Event → Bool
  | .cacheSave _ => true
  | _ => false

/-- Scanner over a trace: every cache write is immediately preceded by a
probe that returned `true`.  The argument records whether the previous
event was such a probe. -/
def savesOkFrom (prevProbeTrue : Bool) : List Event → Bool
  | [] => true
  | .cacheSave _ :: rest => prevProbeTrue && savesOkFrom false rest
  | .probe ok :: rest => savesOkFrom ok rest
  | _ :: rest => savesOkFrom false rest

/-- Whether a trace, entered with flag `b`, ends right after a probe that
returned `true`. -/
def endsProbeTrue (b : Bool) : List Event → Bool
  | [] => b
  | .probe ok :: rest => endsProbeTrue ok rest
  | _ :: rest => endsProbeTrue false rest

/-- The stop condition of the page loop at page `p`: the page has no
vacancies, or `offset + limit` reaches the total it reports
(`offset = p * limit`). -/
def stopsAt (search : Nat → SearchPage) (limit p : Nat) : Prop :=
  (search p).vacancies = [] ∨ p * limit + limit ≥ (search p).total

instance (search : Nat → SearchPage) (limit p : Nat) : Decidable (stopsAt search limit p) := by
  unfold stopsAt; infer_instance

/-- The `relationships.chat.data.id` read of the matched
`vacancyResponse` item, as a total function (`null` on any missing or
non-object step, which is also what the caught exception yields). -/
def vrChatId (y : Json) : Json :=
  sGet (sGet (sGet (sGet y "relationships") "chat") "data") "id"

/-- Search oracle of the end-to-end scenario: `python` returns V1, V2
with total 2; `devops` returns V2, V3 with total 2. -/
def searchScenarioEnd : String → Nat → SearchPage := fun kw _ =>
  if kw = "python" then ⟨2, [⟨"V1", "t1", "c1"⟩, ⟨"V2", "t2", "c2"⟩]⟩
  else if kw = "devops" then ⟨2, [⟨"V2", "t2", "c2"⟩, ⟨"V3", "t3", "c3"⟩]⟩
  else ⟨0, []⟩

/-- Apply oracle where every application succeeds. -/
def applyAllOk : String → ApplyOutcome := fun _ => ⟨true, none, none, ""⟩

/-- Concrete apply environment: HTTP 201, an `included` chat resource
with id `C1`, message delivery succeeding, and an empty configured
default cover letter. -/
def applyEnvCex : ApplyEnv :=
  { resp := .ok (201, .obj [("included", .arr [.obj [("type", .str "chat"), ("id", .str "C1")]])]),
    sendSuccess := true,
    configCoverLetter := "" }

/-- Concrete browser-auth environment: a valid cached cookie set, every
probe succeeding, every adapter extraction failing. -/
def browserEnvW : BrowserEnv :=
  { cached := some [("uat", "u"), ("sat", "s"), ("sask", "k")],
    extractRes := fun _ => .error "no browser",
    probeRes := fun _ => true }

/-! # Helper lemmas -/

theorem lookup_setCookie (j : List (String × String)) (n v m : String) :
    (setCookie j n v).lookup m = if m = n then some v else j.lookup m := by
  induction j with
  | nil =>
    by_cases h : m = n
    · simp [setCookie, List.lookup_cons, h]
    · have hb : (m == n) = false := by simp [h]
      simp [setCookie, List.lookup_cons, h, hb]
  | cons p rest ih =>
    obtain ⟨k, w⟩ := p
    by_cases hkn : k = n
    · subst hkn
      by_cases hmk : m = k
      · have hb : (m == k) = true := by simp [hmk]
        simp [setCookie, List.lookup_cons, hmk, hb]
      · have hb : (m == k) = false := by simp [hmk]
        simp [setCookie, List.lookup_cons, hmk, hb]
    · have hkb : (k == n) = false := by simp [hkn]
      by_cases hmk : m = k
      · subst hmk
        have hb : (m == m) = true := by simp
        simp [setCookie, List.lookup_cons, hkb, hb, hkn]
      · have hmkb : (m == k) = false := by simp [hmk]
        by_cases hmn : m = n
        · subst hmn
          simp [setCookie, List.lookup_cons, hkb, hmkb, ih]
        · simp [setCookie, List.lookup_cons, hkb, hmkb, hmn, ih]

theorem lookup_foldl_setCookie_notMem (ps : List (String × String))
    (j : List (String × String)) (n : String) (h : n ∉ ps.map Prod.fst) :
    ((ps.foldl (fun a p => setCookie a p.1 p.2) j).lookup n) = j.lookup n := by
  induction ps generalizing j with
  | nil => rfl
  | cons p rest ih =>
    simp only [List.map_cons, List.mem_cons, not_or] at h
    simp only [List.foldl_cons]
    rw [ih _ h.2, lookup_setCookie, if_neg h.1]

/-! # C9: explicit-cookie auth and the session cookie jar -/

/-- C9 counterexample: explicit-cookie auth does not replace the jar
wholesale.  A cookie `stale` present before the call and not among the
supplied cookies is still in the jar after the call, contradicting the
claim that the jar then contains exactly the supplied identity and
regional cookies. -/
theorem auth_with_cookies_jar_cex :
    ((auth_with_cookies (fun _ => true) "u" "s" "k" "1687" "1" "1" "applicant"
        ⟨[("stale", "z")], 0, []⟩).2.jar.lookup "stale" = some "z") ∧
    "stale" ∉ (cookieParams "u" "s" "k" "1687" "1" "1" "applicant").map Prod.fst := by
  decide

/-- C9 amended: after `auth_with_cookies` the jar maps every supplied
cookie name to its supplied value, and every cookie whose name is not
among the supplied ones is preserved unchanged — the call updates the
jar in place rather than replacing it wholesale. -/
theorem auth_with_cookies_jar_amended (probeRes : Nat → Bool)
    (uat sat sask geo gc gs lat : String) (st : AuthState) :
    (∀ p ∈ cookieParams uat sat sask geo gc gs lat,
        (auth_with_cookies probeRes uat sat sask geo gc gs lat st).2.jar.lookup p.1 = some p.2) ∧
    (∀ n, n ∉ (cookieParams uat sat sask geo gc gs lat).map Prod.fst →
        (auth_with_cookies probeRes uat sat sask geo gc gs lat st).2.jar.lookup n =
          st.jar.lookup n) := by
  constructor
  · intro p hp
    simp only [cookieParams, List.mem_cons, List.not_mem_nil, or_false] at hp
    rcases hp with h | h | h | h | h | h | h | h <;>
      subst h <;>
      simp [auth_with_cookies, cookieParams, List.foldl, lookup_setCookie]
  · intro n hn
    simp only [auth_with_cookies]
    exact lookup_foldl_setCookie_notMem _ _ _ hn

/-- Witness for the amended C9 theorem at a concrete jar and cookie
set. -/
theorem auth_with_cookies_jar_amended_w :
    ((auth_with_cookies (fun _ => true) "u" "s" "k" "1687" "1" "1" "applicant"
        ⟨[("stale", "z")], 0, []⟩).2.jar.lookup "uat" = some "u") ∧
    ((auth_with_cookies (fun _ => true) "u" "s" "k" "1687" "1" "1" "applicant"
        ⟨[("stale", "z")], 0, []⟩).2.jar.lookup "stale" = some "z") :=
  ⟨(auth_with_cookies_jar_amended (fun _ => true) "u" "s" "k" "1687" "1" "1" "applicant"
      ⟨[("stale", "z")], 0, []⟩).1 ("uat", "u") (by simp [cookieParams]),
   by
    have h := (auth_with_cookies_jar_amended (fun _ => true) "u" "s" "k" "1687" "1" "1" "applicant"
      ⟨[("stale", "z")], 0, []⟩).2 "stale" (by decide)
    simpa using h⟩

/-! # C6: probe semantics of `check_auth` -/

/-- C6: the probe returns Authenticated exactly when the HTTP status is
200; a 302 redirect whose Location contains "login" yields
Unauthenticated, any other status yields Unauthenticated, and a raised
transport error yields Unauthenticated (the function is total: it never
propagates the exception). -/
theorem check_auth_probe_semantics :
    (∀ r : HttpResponse, r.status_code = 200 → check_auth (.ok r) = true) ∧
    (∀ r : HttpResponse, r.status_code ≠ 200 → check_auth (.ok r) = false) ∧
    (∀ r : HttpResponse, r.status_code = 302 →
        strHasSub "login" (headerGet r.headers "Location" "") = true →
        check_auth (.ok r) = false) ∧
    (∀ e, check_auth (.error e) = false) := by
  refine ⟨?_, ?_, ?_, ?_⟩
  · intro r h
    simp [check_auth, h]
  · intro r h
    simp only [check_auth]
    split
    · rfl
    · simp [h]
  · intro r h hl
    simp [check_auth, h, hl]
  · intro e
    rfl

/-- Witness for C6 at concrete probe outcomes. -/
theorem check_auth_probe_semantics_w :
    check_auth (.ok ⟨200, []⟩) = true ∧
    check_auth (.ok ⟨302, [("Location", "https://www.superjob.ru/login/")]⟩) = false :=
  ⟨check_auth_probe_semantics.1 ⟨200, []⟩ rfl,
   check_auth_probe_semantics.2.2.1 ⟨302, [("Location", "https://www.superjob.ru/login/")]⟩
     rfl (by decide)⟩

/-! # C5: rejection of cookie sets missing an identity cookie -/

/-- C5: a cookie file whose parsed cookie set misses one of `uat`, `sat`,
`sask` makes `auth_from_file` raise `ValueError` with the session state
untouched, so no probe request is issued; and the explicit-cookie entry
point always builds a cookie set containing all three identity cookies,
so a set missing one of them can never reach its probe. -/
theorem auth_missing_cookies_no_probe :
    (∀ (probeRes : Nat → Bool) (lines : List String) (st : AuthState),
        hasRequired (lines.foldl parseCookieLine []) = false →
        ∃ msg, auth_from_file probeRes lines st = (.error msg, st)) ∧
    (∀ uat sat sask geo gc gs lat,
        hasRequired (cookieParams uat sat sask geo gc gs lat) = true) := by
  constructor
  · intro probeRes lines st h
    refine ⟨"missing required cookies", ?_⟩
    simp [auth_from_file, h]
  · intro uat sat sask geo gc gs lat
    simp [hasRequired, cookieParams, List.lookup_cons]

/-- Witness for C5: a file providing only `uat` is rejected with the
state (hence the probe count and trace) unchanged. -/
theorem auth_missing_cookies_no_probe_w :
    ∃ msg, auth_from_file (fun _ => true) ["uat=x"] ⟨[], 0, []⟩ = (.error msg, ⟨[], 0, []⟩) :=
  auth_missing_cookies_no_probe.1 (fun _ => true) ["uat=x"] ⟨[], 0, []⟩ (by decide)

/-! # C8: end-to-end scenario -/

/-- C8: with keywords `python, devops`, one page of limit 2 per keyword,
the scenario search results (V1 V2 then V2 V3, both with total 2) and
every application succeeding, the run reports total_found 4, applied 3,
failed 0, skipped 1, applies exactly to V1, V2, V3 in order, and skips
the second occurrence of V2. -/
theorem auto_apply_end_to_end :
    auto_apply searchScenarioEnd applyAllOk ["python", "devops"] 2 1 "R1" =
      .done ⟨4, 3, 0, 1,
        [⟨"V1", "t1", "c1", true, none, none, none⟩,
         ⟨"V2", "t2", "c2", true, none, none, none⟩,
         ⟨"V3", "t3", "c3", true, none, none, none⟩]⟩
        ["V1", "V2", "V3"] ["V2"] := by
  decide

/-! # C7: cover-letter send condition in `apply_to_vacancy` -/

/-- C7 counterexample: with the sentinel argument `"default"` and an
empty configured cover letter, a chat id is obtained and the resolved
cover-letter text is empty, yet a chat message is still sent (with empty
text) — the source gates the send on the unresolved argument, not on the
resolved text. -/
theorem apply_cover_letter_cex :
    (apply_to_vacancy applyEnvCex (some "default")).2 ≠ [] ∧
    applyEnvCex.configCoverLetter = "" ∧
    (∀ m ∈ (apply_to_vacancy applyEnvCex (some "default")).2, m.2 = "") := by
  decide

/-- C7 amended: whenever the POST returns, a chat message is sent iff
the call succeeded with a truthy body, a chat id was obtained, and the
cover-letter argument is truthy (not `None`, not empty).  When sent, the
text is the configured default resolved at call time if the argument is
the sentinel `"default"`, else the argument itself, and the send outcome
is recorded in `cover_letter_sent`; when not sent, `cover_letter_sent`
is never set. -/
theorem apply_cover_letter_amended (env : ApplyEnv) (code : Nat) (body : Json)
    (cl : Option String) (h : env.resp = .ok (code, body)) :
    ((apply_to_vacancy env cl).2 ≠ [] ↔
      ((code = 200 ∨ code = 201) ∧ truthy body = true ∧
        truthy (extract_chat_id body) = true ∧ coverTruthy cl = true)) ∧
    ((apply_to_vacancy env cl).2 ≠ [] →
      (apply_to_vacancy env cl).1.cover_letter_sent = some env.sendSuccess ∧
      (apply_to_vacancy env cl).2 =
        [(extract_chat_id body,
          if cl = some "default" then env.configCoverLetter else cl.getD "")]) ∧
    ((apply_to_vacancy env cl).2 = [] →
      (apply_to_vacancy env cl).1.cover_letter_sent = none) := by
  simp only [apply_to_vacancy, h]
  by_cases hs : (code = 200 ∨ code = 201)
  · by_cases hb : truthy body = true
    · by_cases hc : truthy (extract_chat_id body) = true
      · by_cases hcl : coverTruthy cl = true
        · simp [hs, hb, hc, hcl]
        · simp [hs, hb, hc, hcl]
      · simp [hs, hb, hc]
    · simp [hs, hb]
  · simp [hs]

/-- Witness for the amended C7 theorem: HTTP 200, chat id `C1`, sentinel
argument, configured text `"hello"`, delivery failing — exactly one send
with text `"hello"` and `cover_letter_sent = some false`. -/
theorem apply_cover_letter_amended_w :
    (apply_to_vacancy
        ⟨.ok (200, .obj [("included", .arr [.obj [("type", .str "chat"), ("id", .str "C1")]])]),
         false, "hello"⟩ (some "default")).2 ≠ [] ∧
    (apply_to_vacancy
        ⟨.ok (200, .obj [("included", .arr [.obj [("type", .str "chat"), ("id", .str "C1")]])]),
         false, "hello"⟩ (some "default")).1.cover_letter_sent = some false ∧
    (apply_to_vacancy
        ⟨.ok (200, .obj [("included", .arr [.obj [("type", .str "chat"), ("id", .str "C1")]])]),
         false, "hello"⟩ (some "default")).2 = [(Json.str "C1", "hello")] := by
  have hne := (apply_cover_letter_amended
    ⟨.ok (200, .obj [("included", .arr [.obj [("type", .str "chat"), ("id", .str "C1")]])]),
     false, "hello"⟩ 200 (.obj [("included", .arr [.obj [("type", .str "chat"), ("id", .str "C1")]])])
    (some "default") rfl).1.mpr (by decide)
  have hsent := (apply_cover_letter_amended
    ⟨.ok (200, .obj [("included", .arr [.obj [("type", .str "chat"), ("id", .str "C1")]])]),
     false, "hello"⟩ 200 (.obj [("included", .arr [.obj [("type", .str "chat"), ("id", .str "C1")]])])
    (some "default") rfl).2.1 hne
  refine ⟨hne, hsent.1, ?_⟩
  have h2 := hsent.2
  simpa using h2

/-! # C4: pagination stop condition -/

theorem fetchFrom_no_stop (search : Nat → SearchPage) (limit : Nat) :
    ∀ (fuel s : Nat), (∀ j, j < fuel → ¬ stopsAt search limit (s + j)) →
      (fetchFrom search limit fuel s).2 = List.range' s fuel := by
  intro fuel
  induction fuel with
  | zero => intro s _; rfl
  | succ f ih =>
    intro s h
    have h0 : ¬ stopsAt search limit s := by
      have := h 0 (Nat.succ_pos f)
      simpa using this
    have hne : ¬ (search s).vacancies.isEmpty = true := by
      intro he
      exact h0 (Or.inl (List.isEmpty_iff.mp he))
    have hlt : ¬ s * limit + limit ≥ (search s).total := fun hge => h0 (Or.inr hge)
    have hrec : (fetchFrom search limit f (s + 1)).2 = List.range' (s + 1) f := by
      refine ih (s + 1) (fun j hj => ?_)
      have := h (j + 1) (by omega)
      rw [show s + 1 + j = s + (j + 1) from by omega]
      exact this
    simp only [fetchFrom, if_neg hne, if_neg hlt]
    rw [List.range'_succ]
    simpa using hrec

theorem fetchFrom_stop (search : Nat → SearchPage) (limit : Nat) :
    ∀ (k s fuel : Nat), (∀ j, j < k → ¬ stopsAt search limit (s + j)) →
      stopsAt search limit (s + k) → k < fuel →
      (fetchFrom search limit fuel s).2 = List.range' s (k + 1) := by
  intro k
  induction k with
  | zero =>
    intro s fuel _ hstop hfuel
    obtain ⟨f, rfl⟩ : ∃ f, fuel = f + 1 := ⟨fuel - 1, by omega⟩
    simp only [Nat.add_zero] at hstop
    by_cases hv : (search s).vacancies.isEmpty = true
    · simp [fetchFrom, hv, List.range'_one]
    · have htot : s * limit + limit ≥ (search s).total := by
        rcases hstop with he | ht
        · exact absurd (List.isEmpty_iff.mpr he) hv
        · exact ht
      simp [fetchFrom, hv, htot, List.range'_one]
  | succ n ih =>
    intro s fuel h hstop hfuel
    obtain ⟨f, rfl⟩ : ∃ f, fuel = f + 1 := ⟨fuel - 1, by omega⟩
    have h0 : ¬ stopsAt search limit s := by
      have := h 0 (Nat.succ_pos n)
      simpa using this
    have hne : ¬ (search s).vacancies.isEmpty = true := by
      intro he
      exact h0 (Or.inl (List.isEmpty_iff.mp he))
    have hlt : ¬ s * limit + limit ≥ (search s).total := fun hge => h0 (Or.inr hge)
    have hrec : (fetchFrom search limit f (s + 1)).2 = List.range' (s + 1) (n + 1) := by
      refine ih (s + 1) f (fun j hj => ?_) ?_ (by omega)
      · have := h (j + 1) (by omega)
        rw [show s + 1 + j = s + (j + 1) from by omega]
        exact this
      · rw [show s + 1 + n = s + (n + 1) from by omega]
        exact hstop
    simp only [fetchFrom, if_neg hne, if_neg hlt]
    rw [List.range'_succ]
    simpa using hrec

/-- C4: for every keyword, the page loop halts at the first page whose
response has zero vacancies or whose `offset + limit` reaches the
reported total — the pages queried are exactly `0 .. p` — even when
`maxPages` is not yet reached; when no page satisfies the stop
condition, it queries exactly pages `0 .. maxPages - 1`. -/
theorem pagination_stop_condition (search : Nat → SearchPage) (limit maxPages p : Nat) :
    ((∀ q, q < p → ¬ stopsAt search limit q) → stopsAt search limit p → p < maxPages →
      (fetchPages search limit maxPages).2 = List.range (p + 1)) ∧
    ((∀ q, q < maxPages → ¬ stopsAt search limit q) →
      (fetchPages search limit maxPages).2 = List.range maxPages) := by
  constructor
  · intro hlt hstop hp
    rw [List.range_eq_range']
    exact fetchFrom_stop search limit p 0 maxPages (fun j hj => by simpa using hlt j hj)
      (by simpa using hstop) hp
  · intro hlt
    rw [List.range_eq_range']
    exact fetchFrom_no_stop search limit maxPages 0 (fun j hj => by simpa using hlt j hj)

/-- Witness for C4: a search that returns one vacancy on page 0 (total
100) and nothing from page 1 on stops after page 1 although
`maxPages = 5`. -/
theorem pagination_stop_condition_w :
    (fetchPages (fun q => if q = 0 then ⟨100, [⟨"A", "t", "c"⟩]⟩ else ⟨100, []⟩) 1 5).2 =
      List.range 2 :=
  (pagination_stop_condition (fun q => if q = 0 then ⟨100, [⟨"A", "t", "c"⟩]⟩ else ⟨100, []⟩)
      1 5 1).1 (by decide) (by decide) (by decide)

/-! # C2: cache-first order and cache-write discipline -/

theorem savesOkFrom_append (xs : List Event) :
    ∀ (b : Bool) (ys : List Event),
      savesOkFrom b (xs ++ ys) =
        (savesOkFrom b xs && savesOkFrom (endsProbeTrue b xs) ys) := by
  induction xs with
  | nil => intro b ys; simp [savesOkFrom, endsProbeTrue]
  | cons e rest ih =>
    intro b ys
    cases e <;> simp [savesOkFrom, endsProbeTrue, ih, Bool.and_assoc]

theorem auth_with_cached_trace_cases (env : BrowserEnv) (st : AuthState) :
    (auth_with_cached_cookies env st).2.trace = st.trace ∨
    ∃ b, (auth_with_cached_cookies env st).2.trace = st.trace ++ [Event.probe b] := by
  unfold auth_with_cached_cookies
  match env.cached with
  | none => exact Or.inl rfl
  | some cached =>
    by_cases hce : cached.isEmpty
    · simp [hce]
    · by_cases hreq : hasRequired cached
      · right
        refine ⟨env.probeRes st.probeCount, ?_⟩
        simp [hce, hreq, auth_with_cookies]
      · simp [hce, hreq]

theorem tryBrowsers_trace_ext (env : BrowserEnv) :
    ∀ (l : List String) (st : AuthState),
      ∃ t, (tryBrowsers env l st).2.trace = st.trace ++ t := by
  intro l
  induction l with
  | nil => intro st; exact ⟨[], by simp [tryBrowsers]⟩
  | cons br rest ih =>
    intro st
    simp only [tryBrowsers]
    match hex : env.extractRes br with
    | .error e =>
      obtain ⟨t, ht⟩ := ih { st with trace := st.trace ++ [.extractAttempt br] }
      exact ⟨[.extractAttempt br] ++ t, by simp [ht]⟩
    | .ok cookies =>
      by_cases hreq : hasRequired cookies
      · by_cases hok : env.probeRes (st.probeCount) = true
        · refine ⟨[.extractAttempt br, .probe true, .cacheSave cookies], ?_⟩
          simp [hreq, auth_with_cookies, hok]
        · obtain ⟨t, ht⟩ := ih
            { jar := (cookieParams ((cookies.lookup "uat").getD "") ((cookies.lookup "sat").getD "")
                ((cookies.lookup "sask").getD "") ((cookies.lookup "geo").getD "1687")
                ((cookies.lookup "geoConfirmed").getD "1") ((cookies.lookup "geoSet").getD "1")
                ((cookies.lookup "loginAuthType").getD "applicant")).foldl
                  (fun j p => setCookie j p.1 p.2) st.jar,
              probeCount := st.probeCount + 1,
              trace := (st.trace ++ [.extractAttempt br]) ++ [.probe (env.probeRes st.probeCount)] }
          refine ⟨[.extractAttempt br] ++ [.probe (env.probeRes st.probeCount)] ++ t, ?_⟩
          simp only [auth_with_cookies, hreq, if_pos, Bool.not_eq_true] at *
          rw [if_neg (by simp [hok])]
          simpa using ht
      · obtain ⟨t, ht⟩ := ih { st with trace := st.trace ++ [.extractAttempt br] }
        refine ⟨[.extractAttempt br] ++ t, ?_⟩
        simp [hreq]
        simpa using ht

theorem tryBrowsers_savesOk (env : BrowserEnv) :
    ∀ (l : List String) (st : AuthState), savesOkFrom false st.trace = true →
      savesOkFrom false (tryBrowsers env l st).2.trace = true := by
  intro l
  induction l with
  | nil => intro st h; simpa [tryBrowsers] using h
  | cons br rest ih =>
    intro st h
    simp only [tryBrowsers]
    match hex : env.extractRes br with
    | .error e =>
      refine ih _ ?_
      rw [savesOkFrom_append]
      simp [h, savesOkFrom]
    | .ok cookies =>
      by_cases hreq : hasRequired cookies
      · by_cases hok : env.probeRes st.probeCount = true
        · simp only [hreq, if_true, auth_with_cookies, hok]
          rw [List.append_assoc, List.append_assoc, savesOkFrom_append]
          simp [h, savesOkFrom]
        · have hokf : env.probeRes st.probeCount = false := by
            cases hpr : env.probeRes st.probeCount
            · rfl
            · exact absurd hpr hok
          simp only [hreq, if_true, auth_with_cookies, hokf, Bool.false_eq_true, if_false]
          refine ih _ ?_
          simp only []
          rw [List.append_assoc, savesOkFrom_append]
          simp [h, savesOkFrom]
      · simp only [hreq, if_false]
        refine ih _ ?_
        rw [savesOkFrom_append]
        simp [h, savesOkFrom]

theorem auth_from_browser_unfold (env : BrowserEnv) (browser : String)
    (jar : List (String × String)) :
    auth_from_browser env browser false ⟨jar, 0, []⟩ =
      (if (auth_with_cached_cookies env ⟨jar, 0, [Event.cacheLoad]⟩).1 then
        (.ok true, (auth_with_cached_cookies env ⟨jar, 0, [Event.cacheLoad]⟩).2)
      else if browser ≠ "auto" ∧ ¬ (browser ∈ knownBrowsers) then
        (.error "unknown browser", (auth_with_cached_cookies env ⟨jar, 0, [Event.cacheLoad]⟩).2)
      else
        tryBrowsers env (browserOrder browser)
          (auth_with_cached_cookies env ⟨jar, 0, [Event.cacheLoad]⟩).2) := by
  simp [auth_from_browser]

/-- C2: in the non-forced flow starting from a fresh trace, the cache
read is the first event — before any adapter extraction; a valid cached
cookie set that passes its probe returns success with trace
`[cacheLoad, probe true]`, hence no cache write; and in every run, every
cache write is immediately preceded by a successful adapter probe (the
scanner `savesOkFrom`), so neither the cache validation nor a failed
adapter validation ever writes the cache. -/
theorem auth_browser_cache_first_save_discipline (env : BrowserEnv) (browser : String)
    (jar : List (String × String)) :
    ((auth_from_browser env browser false ⟨jar, 0, []⟩).2.trace.head? = some Event.cacheLoad) ∧
    (∀ c, env.cached = some c → c ≠ [] → hasRequired c = true → env.probeRes 0 = true →
        (auth_from_browser env browser false ⟨jar, 0, []⟩).1 = .ok true ∧
        (auth_from_browser env browser false ⟨jar, 0, []⟩).2.trace =
          [Event.cacheLoad, Event.probe true]) ∧
    (savesOkFrom false (auth_from_browser env browser false ⟨jar, 0, []⟩).2.trace = true) := by
  have hcs := auth_with_cached_trace_cases env ⟨jar, 0, [Event.cacheLoad]⟩
  have htr : ∃ r, (auth_with_cached_cookies env ⟨jar, 0, [Event.cacheLoad]⟩).2.trace =
      Event.cacheLoad :: r ∧ savesOkFrom false (Event.cacheLoad :: r) = true := by
    rcases hcs with h | ⟨b, h⟩
    · exact ⟨[], by simpa using h, by simp [savesOkFrom]⟩
    · exact ⟨[Event.probe b], by simpa using h, by simp [savesOkFrom]⟩
  obtain ⟨r, hr, hok⟩ := htr
  refine ⟨?_, ?_, ?_⟩
  · rw [auth_from_browser_unfold]
    split
    · simp [hr]
    · split
      · simp [hr]
      · obtain ⟨t, ht⟩ := tryBrowsers_trace_ext env (browserOrder browser)
          (auth_with_cached_cookies env ⟨jar, 0, [Event.cacheLoad]⟩).2
        simp [ht, hr]
  · intro c hc hcne hreq hp
    have hce : c.isEmpty = false := by
      cases c with
      | nil => exact absurd rfl hcne
      | cons a l => rfl
    have h1 : (auth_with_cached_cookies env ⟨jar, 0, [Event.cacheLoad]⟩).1 = true := by
      simp [auth_with_cached_cookies, hc, hce, hreq, auth_with_cookies, hp]
    have h2 : (auth_with_cached_cookies env ⟨jar, 0, [Event.cacheLoad]⟩).2.trace =
        [Event.cacheLoad, Event.probe true] := by
      simp [auth_with_cached_cookies, hc, hce, hreq, auth_with_cookies, hp]
    rw [auth_from_browser_unfold, if_pos h1]
    exact ⟨rfl, h2⟩
  · rw [auth_from_browser_unfold]
    split
    · simpa [hr] using hok
    · split
      · simpa [hr] using hok
      · exact tryBrowsers_savesOk env (browserOrder browser) _ (by rw [hr]; exact hok)

/-- Witness for C2 at a concrete environment with a valid cache and a
successful probe. -/
theorem auth_browser_cache_first_save_discipline_w :
    (auth_from_browser browserEnvW "auto" false ⟨[], 0, []⟩).1 = .ok true ∧
    (auth_from_browser browserEnvW "auto" false ⟨[], 0, []⟩).2.trace =
      [Event.cacheLoad, Event.probe true] :=
  (auth_browser_cache_first_save_discipline browserEnvW "auto" []).2.1
    [("uat", "u"), ("sat", "s"), ("sask", "k")] rfl (by decide) (by decide) rfl

/-! # C3 and C10: driver de-duplication and stats conservation -/

theorem processVacancy_appliedIds (f : String → ApplyOutcome) (st : RunState) (v : Vacancy) :
    (processVacancy f st v).appliedIds =
      if v.id ∈ st.appliedIds then st.appliedIds else v.id :: st.appliedIds := by
  by_cases hm : v.id ∈ st.appliedIds <;> simp [processVacancy, hm]

theorem processVacancy_applyCalls (f : String → ApplyOutcome) (st : RunState) (v : Vacancy) :
    (processVacancy f st v).applyCalls =
      if v.id ∈ st.appliedIds then st.applyCalls else st.applyCalls ++ [v.id] := by
  by_cases hm : v.id ∈ st.appliedIds <;> simp [processVacancy, hm]

theorem processVacancy_skipTrace (f : String → ApplyOutcome) (st : RunState) (v : Vacancy) :
    (processVacancy f st v).skipTrace =
      if v.id ∈ st.appliedIds then st.skipTrace ++ [v.id] else st.skipTrace := by
  by_cases hm : v.id ∈ st.appliedIds <;> simp [processVacancy, hm]

theorem processVacancy_sum (f : String → ApplyOutcome) (st : RunState) (v : Vacancy) :
    (processVacancy f st v).stats.applied + (processVacancy f st v).stats.failed +
      (processVacancy f st v).stats.skipped =
      st.stats.applied + st.stats.failed + st.stats.skipped + 1 := by
  by_cases hm : v.id ∈ st.appliedIds
  · simp [processVacancy, hm]; omega
  · by_cases hs : (f v.id).success <;> simp [processVacancy, hm, hs] <;> omega

theorem processVacancy_af (f : String → ApplyOutcome) (st : RunState) (v : Vacancy) :
    (processVacancy f st v).stats.applied + (processVacancy f st v).stats.failed =
      st.stats.applied + st.stats.failed + (if v.id ∈ st.appliedIds then 0 else 1) := by
  by_cases hm : v.id ∈ st.appliedIds
  · simp [processVacancy, hm]
  · by_cases hs : (f v.id).success <;> simp [processVacancy, hm, hs] <;> omega

theorem processVacancy_results_len (f : String → ApplyOutcome) (st : RunState) (v : Vacancy) :
    (processVacancy f st v).stats.results.length =
      st.stats.results.length + (if v.id ∈ st.appliedIds then 0 else 1) := by
  by_cases hm : v.id ∈ st.appliedIds
  · simp [processVacancy, hm]
  · by_cases hs : (f v.id).success <;> simp [processVacancy, hm, hs]

theorem processVacancy_total_found (f : String → ApplyOutcome) (st : RunState) (v : Vacancy) :
    (processVacancy f st v).stats.total_found = st.stats.total_found := by
  by_cases hm : v.id ∈ st.appliedIds
  · simp [processVacancy, hm]
  · by_cases hs : (f v.id).success <;> simp [processVacancy, hm, hs]

theorem foldl_process_mem (f : String → ApplyOutcome) :
    ∀ (l : List Vacancy) (st : RunState) (vid : String),
      (vid ∈ (l.foldl (processVacancy f) st).appliedIds ↔
        vid ∈ st.appliedIds ∨ vid ∈ l.map Vacancy.id) := by
  intro l
  induction l with
  | nil => intro st vid; simp
  | cons v rest ih =>
    intro st vid
    simp only [List.foldl_cons, List.map_cons, List.mem_cons]
    rw [ih]
    rw [processVacancy_appliedIds]
    by_cases hm : v.id ∈ st.appliedIds
    · rw [if_pos hm]
      constructor
      · tauto
      · rintro (h | h | h)
        · tauto
        · subst h; tauto
        · tauto
    · rw [if_neg hm]
      simp only [List.mem_cons]
      tauto

theorem foldl_process_calls (f : String → ApplyOutcome) :
    ∀ (l : List Vacancy) (st : RunState) (vid : String),
      ((l.foldl (processVacancy f) st).applyCalls.count vid) =
        st.applyCalls.count vid +
          (if vid ∈ st.appliedIds then 0 else if vid ∈ l.map Vacancy.id then 1 else 0) := by
  intro l
  induction l with
  | nil => intro st vid; simp
  | cons v rest ih =>
    intro st vid
    simp only [List.foldl_cons, List.map_cons, List.mem_cons]
    rw [ih, processVacancy_applyCalls, processVacancy_appliedIds]
    by_cases hm : v.id ∈ st.appliedIds
    · rw [if_pos hm, if_pos hm]
      by_cases hv : vid = v.id
      · have hv2 : vid ∈ st.appliedIds := hv.symm ▸ hm
        simp [hv2, hv, hm]
      · simp [hv]
    · rw [if_neg hm, if_neg hm]
      have hcnt : (st.applyCalls ++ [v.id]).count vid =
          st.applyCalls.count vid + (if vid = v.id then 1 else 0) := by
        rw [List.count_append, List.count_singleton]
        by_cases hv : vid = v.id
        · have hb : (v.id == vid) = true := by rw [hv]; simp
          simp [hb, hv]
        · have hb : (v.id == vid) = false := by
            cases hbe : v.id == vid
            · rfl
            · exact absurd (eq_of_beq hbe) (Ne.symm hv)
          simp [hb, hv]
      rw [hcnt]
      by_cases hv : vid = v.id
      · have hnm : vid ∉ st.appliedIds := hv.symm ▸ hm
        simp [hv, hnm, hm]
      · by_cases hm2 : vid ∈ st.appliedIds
        · simp [hv, hm2]
        · simp [hv, hm2]

theorem foldl_process_calls_skips (f : String → ApplyOutcome) :
    ∀ (l : List Vacancy) (st : RunState) (vid : String),
      ((l.foldl (processVacancy f) st).applyCalls.count vid +
        (l.foldl (processVacancy f) st).skipTrace.count vid) =
        st.applyCalls.count vid + st.skipTrace.count vid + (l.map Vacancy.id).count vid := by
  intro l
  induction l with
  | nil => intro st vid; simp
  | cons v rest ih =>
    intro st vid
    simp only [List.foldl_cons, List.map_cons]
    rw [ih]
    rw [processVacancy_applyCalls, processVacancy_skipTrace]
    rw [List.count_cons]
    by_cases hm : v.id ∈ st.appliedIds
    · rw [if_pos hm, if_pos hm]
      simp only [List.count_append, List.count_singleton]
      omega
    · rw [if_neg hm, if_neg hm]
      simp only [List.count_append, List.count_singleton]
      omega

theorem foldl_process_sum (f : String → ApplyOutcome) :
    ∀ (l : List Vacancy) (st : RunState),
      ((l.foldl (processVacancy f) st).stats.applied +
        (l.foldl (processVacancy f) st).stats.failed +
        (l.foldl (processVacancy f) st).stats.skipped) =
        st.stats.applied + st.stats.failed + st.stats.skipped + l.length := by
  intro l
  induction l with
  | nil => intro st; simp
  | cons v rest ih =>
    intro st
    simp only [List.foldl_cons, List.length_cons]
    rw [ih, processVacancy_sum]
    omega

theorem foldl_process_af_results (f : String → ApplyOutcome) :
    ∀ (l : List Vacancy) (st : RunState),
      ((l.foldl (processVacancy f) st).stats.results.length =
          (l.foldl (processVacancy f) st).stats.applied +
            (l.foldl (processVacancy f) st).stats.failed) ↔
        (st.stats.results.length = st.stats.applied + st.stats.failed) := by
  intro l
  induction l with
  | nil => intro st; simp
  | cons v rest ih =>
    intro st
    simp only [List.foldl_cons]
    rw [ih]
    constructor
    · intro h
      rw [processVacancy_results_len, processVacancy_af] at h
      omega
    · intro h
      rw [processVacancy_results_len, processVacancy_af]
      omega

theorem foldl_process_total_found (f : String → ApplyOutcome) :
    ∀ (l : List Vacancy) (st : RunState),
      (l.foldl (processVacancy f) st).stats.total_found = st.stats.total_found := by
  intro l
  induction l with
  | nil => intro st; rfl
  | cons v rest ih =>
    intro st
    simp only [List.foldl_cons]
    rw [ih, processVacancy_total_found]

theorem processKeyword_mem (search : String → Nat → SearchPage) (f : String → ApplyOutcome)
    (limit maxPages : Nat) (st : RunState) (kw : String) (vid : String) :
    (vid ∈ (processKeyword search f limit maxPages st kw).appliedIds ↔
      vid ∈ st.appliedIds ∨
        vid ∈ ((fetchPages (search kw) limit maxPages).1).map Vacancy.id) := by
  simp only [processKeyword]
  rw [foldl_process_mem]

theorem processKeyword_calls (search : String → Nat → SearchPage) (f : String → ApplyOutcome)
    (limit maxPages : Nat) (st : RunState) (kw : String) (vid : String) :
    ((processKeyword search f limit maxPages st kw).applyCalls.count vid) =
      st.applyCalls.count vid +
        (if vid ∈ st.appliedIds then 0
         else if vid ∈ ((fetchPages (search kw) limit maxPages).1).map Vacancy.id then 1
         else 0) := by
  simp only [processKeyword]
  rw [foldl_process_calls]

theorem processKeyword_calls_skips (search : String → Nat → SearchPage)
    (f : String → ApplyOutcome) (limit maxPages : Nat) (st : RunState) (kw : String)
    (vid : String) :
    ((processKeyword search f limit maxPages st kw).applyCalls.count vid +
      (processKeyword search f limit maxPages st kw).skipTrace.count vid) =
      st.applyCalls.count vid + st.skipTrace.count vid +
        (((fetchPages (search kw) limit maxPages).1).map Vacancy.id).count vid := by
  simp only [processKeyword]
  rw [foldl_process_calls_skips]

theorem processKeyword_sum (search : String → Nat → SearchPage) (f : String → ApplyOutcome)
    (limit maxPages : Nat) (st : RunState) (kw : String) :
    ((processKeyword search f limit maxPages st kw).stats.applied +
      (processKeyword search f limit maxPages st kw).stats.failed +
      (processKeyword search f limit maxPages st kw).stats.skipped) =
      st.stats.applied + st.stats.failed + st.stats.skipped +
        ((fetchPages (search kw) limit maxPages).1).length := by
  simp only [processKeyword]
  rw [foldl_process_sum]

theorem processKeyword_results_iff (search : String → Nat → SearchPage)
    (f : String → ApplyOutcome) (limit maxPages : Nat) (st : RunState) (kw : String) :
    (((processKeyword search f limit maxPages st kw).stats.results.length =
        (processKeyword search f limit maxPages st kw).stats.applied +
          (processKeyword search f limit maxPages st kw).stats.failed) ↔
      (st.stats.results.length = st.stats.applied + st.stats.failed)) := by
  simp only [processKeyword]
  rw [foldl_process_af_results]

theorem processKeyword_total_found (search : String → Nat → SearchPage)
    (f : String → ApplyOutcome) (limit maxPages : Nat) (st : RunState) (kw : String) :
    (processKeyword search f limit maxPages st kw).stats.total_found =
      st.stats.total_found + ((fetchPages (search kw) limit maxPages).1).length := by
  simp only [processKeyword]
  rw [foldl_process_total_found]

theorem run_mem (search : String → Nat → SearchPage) (f : String → ApplyOutcome)
    (limit maxPages : Nat) :
    ∀ (kws : List String) (st : RunState) (vid : String),
      (vid ∈ (kws.foldl (processKeyword search f limit maxPages) st).appliedIds ↔
        vid ∈ st.appliedIds ∨ vid ∈ occurrenceIds search limit maxPages kws) := by
  intro kws
  induction kws with
  | nil => intro st vid; simp [occurrenceIds]
  | cons kw rest ih =>
    intro st vid
    simp only [List.foldl_cons, occurrenceIds, List.map_cons, List.flatten_cons,
      List.mem_append] at *
    rw [ih]
    rw [processKeyword_mem]
    tauto

theorem run_calls (search : String → Nat → SearchPage) (f : String → ApplyOutcome)
    (limit maxPages : Nat) :
    ∀ (kws : List String) (st : RunState) (vid : String),
      ((kws.foldl (processKeyword search f limit maxPages) st).applyCalls.count vid) =
        st.applyCalls.count vid +
          (if vid ∈ st.appliedIds then 0
           else if vid ∈ occurrenceIds search limit maxPages kws then 1 else 0) := by
  intro kws
  induction kws with
  | nil => intro st vid; simp [occurrenceIds]
  | cons kw rest ih =>
    intro st vid
    simp only [List.foldl_cons, occurrenceIds, List.map_cons, List.flatten_cons,
      List.mem_append] at *
    rw [ih, processKeyword_calls]
    have hpk := processKeyword_mem search f limit maxPages st kw vid
    by_cases h1 : vid ∈ st.appliedIds
    · have h1p : vid ∈ (processKeyword search f limit maxPages st kw).appliedIds :=
        hpk.mpr (Or.inl h1)
      simp [h1, h1p]
    · by_cases h2 : vid ∈ ((fetchPages (search kw) limit maxPages).1).map Vacancy.id
      · have h1p : vid ∈ (processKeyword search f limit maxPages st kw).appliedIds :=
          hpk.mpr (Or.inr h2)
        simp [h1, h2, h1p]
      · have h1p : vid ∉ (processKeyword search f limit maxPages st kw).appliedIds := by
          intro hx
          rcases hpk.mp hx with h | h
          · exact h1 h
          · exact h2 h
        by_cases h3 : vid ∈ occurrenceIds search limit maxPages rest
        · simp only [occurrenceIds] at h3
          simp [h1, h2, h1p, h3]
        · simp only [occurrenceIds] at h3
          simp [h1, h2, h1p, h3]

theorem run_calls_skips (search : String → Nat → SearchPage) (f : String → ApplyOutcome)
    (limit maxPages : Nat) :
    ∀ (kws : List String) (st : RunState) (vid : String),
      ((kws.foldl (processKeyword search f limit maxPages) st).applyCalls.count vid +
        (kws.foldl (processKeyword search f limit maxPages) st).skipTrace.count vid) =
        st.applyCalls.count vid + st.skipTrace.count vid +
          (occurrenceIds search limit maxPages kws).count vid := by
  intro kws
  induction kws with
  | nil => intro st vid; simp [occurrenceIds]
  | cons kw rest ih =>
    intro st vid
    simp only [List.foldl_cons, occurrenceIds, List.map_cons, List.flatten_cons] at *
    rw [ih, List.count_append]
    have := processKeyword_calls_skips search f limit maxPages st kw vid
    omega

theorem run_sum (search : String → Nat → SearchPage) (f : String → ApplyOutcome)
    (limit maxPages : Nat) :
    ∀ (kws : List String) (st : RunState),
      ((kws.foldl (processKeyword search f limit maxPages) st).stats.applied +
        (kws.foldl (processKeyword search f limit maxPages) st).stats.failed +
        (kws.foldl (processKeyword search f limit maxPages) st).stats.skipped) =
        st.stats.applied + st.stats.failed + st.stats.skipped +
          (occurrenceIds search limit maxPages kws).length := by
  intro kws
  induction kws with
  | nil => intro st; simp [occurrenceIds]
  | cons kw rest ih =>
    intro st
    simp only [List.foldl_cons, occurrenceIds, List.map_cons, List.flatten_cons,
      List.length_append, List.length_map] at *
    rw [ih]
    have := processKeyword_sum search f limit maxPages st kw
    omega

theorem run_af_results (search : String → Nat → SearchPage) (f : String → ApplyOutcome)
    (limit maxPages : Nat) :
    ∀ (kws : List String) (st : RunState),
      st.stats.results.length = st.stats.applied + st.stats.failed →
      ((kws.foldl (processKeyword search f limit maxPages) st).stats.results.length =
        (kws.foldl (processKeyword search f limit maxPages) st).stats.applied +
          (kws.foldl (processKeyword search f limit maxPages) st).stats.failed) := by
  intro kws
  induction kws with
  | nil => intro st h; simpa using h
  | cons kw rest ih =>
    intro st h
    simp only [List.foldl_cons]
    exact ih _ ((processKeyword_results_iff search f limit maxPages st kw).mpr h)

theorem run_total_found (search : String → Nat → SearchPage) (f : String → ApplyOutcome)
    (limit maxPages : Nat) :
    ∀ (kws : List String) (st : RunState),
      (kws.foldl (processKeyword search f limit maxPages) st).stats.total_found =
        st.stats.total_found + (occurrenceIds search limit maxPages kws).length := by
  intro kws
  induction kws with
  | nil => intro st; simp [occurrenceIds]
  | cons kw rest ih =>
    intro st
    simp only [List.foldl_cons, occurrenceIds, List.map_cons, List.flatten_cons,
      List.length_append, List.length_map] at *
    rw [ih]
    have := processKeyword_total_found search f limit maxPages st kw
    omega

/-- C10: every completed run satisfies
`applied + failed + skipped = total_found` and has exactly
`applied + failed` result records — each fetched vacancy occurrence is
accounted for by exactly one counter. -/
theorem auto_apply_stats_conservation (search : String → Nat → SearchPage)
    (f : String → ApplyOutcome) (keywords : List String) (limit maxPages : Nat)
    (resumeId : String) (hk : keywords ≠ []) (hr : resumeId ≠ "") :
    ∃ stats calls skips,
      auto_apply search f keywords limit maxPages resumeId = .done stats calls skips ∧
      stats.applied + stats.failed + stats.skipped = stats.total_found ∧
      stats.results.length = stats.applied + stats.failed := by
  have hki : keywords.isEmpty = false := by
    cases keywords with
    | nil => exact absurd rfl hk
    | cons a l => rfl
  have heq : auto_apply search f keywords limit maxPages resumeId =
      .done (keywords.foldl (processKeyword search f limit maxPages) initialRunState).stats
        (keywords.foldl (processKeyword search f limit maxPages) initialRunState).applyCalls
        (keywords.foldl (processKeyword search f limit maxPages) initialRunState).skipTrace := by
    simp only [auto_apply, hki, Bool.false_eq_true, if_false, if_neg hr]
  refine ⟨_, _, _, heq, ?_, ?_⟩
  · have h1 := run_sum search f limit maxPages keywords initialRunState
    have h2 := run_total_found search f limit maxPages keywords initialRunState
    simp only [initialRunState] at h1 h2 ⊢
    omega
  · exact run_af_results search f limit maxPages keywords initialRunState (by rfl)

/-- Witness for C10 at the end-to-end scenario inputs. -/
theorem auto_apply_stats_conservation_w :
    ∃ stats calls skips,
      auto_apply searchScenarioEnd applyAllOk ["python", "devops"] 2 1 "R1" =
        .done stats calls skips ∧
      stats.applied + stats.failed + stats.skipped = stats.total_found ∧
      stats.results.length = stats.applied + stats.failed :=
  auto_apply_stats_conservation searchScenarioEnd applyAllOk ["python", "devops"] 2 1 "R1"
    (by decide) (by decide)

/-- C3: in every completed run, a vacancy id fetched at least once —
in particular one shared by the result sets of two keywords — is passed
to `apply_to_vacancy` exactly once over the whole run, and every
occurrence beyond the first increments the skipped counter exactly once
(the skip trace holds one entry per duplicate occurrence). -/
theorem auto_apply_dedup (search : String → Nat → SearchPage) (f : String → ApplyOutcome)
    (keywords : List String) (limit maxPages : Nat) (resumeId : String) (vid : String)
    (hk : keywords ≠ []) (hr : resumeId ≠ "")
    (hocc : 0 < (occurrenceIds search limit maxPages keywords).count vid) :
    ∃ stats calls skips,
      auto_apply search f keywords limit maxPages resumeId = .done stats calls skips ∧
      calls.count vid = 1 ∧
      skips.count vid = (occurrenceIds search limit maxPages keywords).count vid - 1 := by
  have hki : keywords.isEmpty = false := by
    cases keywords with
    | nil => exact absurd rfl hk
    | cons a l => rfl
  have hmem : vid ∈ occurrenceIds search limit maxPages keywords :=
    List.count_pos_iff.mp hocc
  have hcalls := run_calls search f limit maxPages keywords initialRunState vid
  have hcs := run_calls_skips search f limit maxPages keywords initialRunState vid
  simp only [initialRunState, List.count_nil, List.not_mem_nil, if_false, Nat.zero_add,
    hmem, if_true] at hcalls hcs
  have heq : auto_apply search f keywords limit maxPages resumeId =
      .done (keywords.foldl (processKeyword search f limit maxPages) initialRunState).stats
        (keywords.foldl (processKeyword search f limit maxPages) initialRunState).applyCalls
        (keywords.foldl (processKeyword search f limit maxPages) initialRunState).skipTrace := by
    simp only [auto_apply, hki, Bool.false_eq_true, if_false, if_neg hr]
  refine ⟨_, _, _, heq, ?_, ?_⟩
  · simpa [initialRunState] using hcalls
  · simp only [initialRunState] at hcalls hcs ⊢
    omega

/-- Witness for C3: in the end-to-end scenario V2 occurs in both
keyword result sets; it is applied to once and skipped once. -/
theorem auto_apply_dedup_w :
    ∃ stats calls skips,
      auto_apply searchScenarioEnd applyAllOk ["python", "devops"] 2 1 "R1" =
        .done stats calls skips ∧
      calls.count "V2" = 1 ∧
      skips.count "V2" =
        (occurrenceIds searchScenarioEnd 2 1 ["python", "devops"]).count "V2" - 1 :=
  auto_apply_dedup searchScenarioEnd applyAllOk ["python", "devops"] 2 1 "R1" "V2"
    (by decide) (by decide) (by decide)

/-! # C1: chat-id extraction policy -/

theorem exbind_ok {α β : Type} (a : α) (f : α → Except Unit β) :
    (Except.ok a >>= f : Except Unit β) = f a := rfl

theorem exbind_err {α β : Type} (f : α → Except Unit β) :
    (Except.error () >>= f : Except Unit β) = Except.error () := rfl

theorem jget_obj_null (v : Json) (k : String) (h : isObjB v = true) :
    jget v k Json.null = .ok (sGet v k) := by
  cases v <;> simp_all [jget, sGet, isObjB]

theorem scanChat_found :
    ∀ (pre : List Json) (x : Json) (rest : List Json),
      (∀ y ∈ pre, isObjB y = true ∧ sGet y "type" ≠ Json.str "chat") →
      isObjB x = true → sGet x "type" = Json.str "chat" →
      scanChat (pre ++ x :: rest) = .ok (some (sGet x "id")) := by
  intro pre
  induction pre with
  | nil =>
    intro x rest _ hx htx
    simp only [List.nil_append, scanChat]
    rw [jget_obj_null x "type" hx, exbind_ok, if_pos htx, jget_obj_null x "id" hx, exbind_ok]
    rfl
  | cons y pre ih =>
    intro x rest hpre hx htx
    have hy := hpre y (by simp)
    simp only [List.cons_append, scanChat]
    rw [jget_obj_null y "type" hy.1, exbind_ok, if_neg hy.2]
    exact ih x rest (fun z hz => hpre z (by simp [hz])) hx htx

theorem scanChat_none :
    ∀ (items : List Json),
      (∀ y ∈ items, isObjB y = true ∧ sGet y "type" ≠ Json.str "chat") →
      scanChat items = .ok none := by
  intro items
  induction items with
  | nil => intro _; rfl
  | cons y rest ih =>
    intro h
    have hy := h y (by simp)
    simp only [scanChat]
    rw [jget_obj_null y "type" hy.1, exbind_ok, if_neg hy.2]
    exact ih (fun z hz => h z (by simp [hz]))

theorem scanVr_none (vid : Json) :
    ∀ (items : List Json),
      (∀ z ∈ items, isObjB z = true ∧
        ¬(sGet z "type" = Json.str "vacancyResponse" ∧ sGet z "id" = vid)) →
      scanVr vid items = .ok none := by
  intro items
  induction items with
  | nil => intro _; rfl
  | cons z rest ih =>
    intro h
    have hz := h z (by simp)
    simp only [scanVr]
    rw [jget_obj_null z "type" hz.1, exbind_ok]
    by_cases ht : sGet z "type" = Json.str "vacancyResponse"
    · rw [if_pos ht, jget_obj_null z "id" hz.1, exbind_ok]
      have hid : ¬ sGet z "id" = vid := fun hi => hz.2 ⟨ht, hi⟩
      rw [if_neg hid]
      exact ih (fun w hw => h w (by simp [hw]))
    · rw [if_neg ht]
      exact ih (fun w hw => h w (by simp [hw]))

theorem scanVr_found (vid : Json) :
    ∀ (pre : List Json) (y : Json) (rest : List Json),
      (∀ z ∈ pre, isObjB z = true ∧
        ¬(sGet z "type" = Json.str "vacancyResponse" ∧ sGet z "id" = vid)) →
      isObjB y = true → sGet y "type" = Json.str "vacancyResponse" → sGet y "id" = vid →
      (scanVr vid (pre ++ y :: rest) = .ok (some (vrChatId y)) ∨
        (scanVr vid (pre ++ y :: rest) = .error () ∧ vrChatId y = Json.null)) := by
  intro pre
  induction pre with
  | cons z pre ih =>
    intro y rest hpre hy hty hidy
    have hz := hpre z (by simp)
    have hstep : scanVr vid (z :: (pre ++ y :: rest)) = scanVr vid (pre ++ y :: rest) := by
      simp only [scanVr]
      rw [jget_obj_null z "type" hz.1, exbind_ok]
      by_cases ht : sGet z "type" = Json.str "vacancyResponse"
      · rw [if_pos ht, jget_obj_null z "id" hz.1, exbind_ok]
        have hid : ¬ sGet z "id" = vid := fun hi => hz.2 ⟨ht, hi⟩
        rw [if_neg hid]
      · rw [if_neg ht]
    rw [List.cons_append, hstep]
    exact ih y rest (fun w hw => hpre w (by simp [hw])) hy hty hidy
  | nil =>
    intro y rest _ hy hty hidy
    cases y with
    | null => simp [isObjB] at hy
    | str s => simp [isObjB] at hy
    | num n => simp [isObjB] at hy
    | bool b => simp [isObjB] at hy
    | arr xs => simp [isObjB] at hy
    | obj fy =>
      simp only [List.nil_append, scanVr]
      rw [jget_obj_null (Json.obj fy) "type" rfl, exbind_ok, if_pos hty,
        jget_obj_null (Json.obj fy) "id" rfl, exbind_ok, if_pos hidy]
      cases hrel : fy.lookup "relationships" with
      | none =>
        left
        simp [jget, hrel, vrChatId, sGet, exbind_ok]
      | some r =>
        cases r with
        | null =>
          right
          exact ⟨by simp [jget, hrel, exbind_ok, exbind_err],
            by simp [vrChatId, sGet, hrel]⟩
        | str s =>
          right
          exact ⟨by simp [jget, hrel, exbind_ok, exbind_err],
            by simp [vrChatId, sGet, hrel]⟩
        | num n =>
          right
          exact ⟨by simp [jget, hrel, exbind_ok, exbind_err],
            by simp [vrChatId, sGet, hrel]⟩
        | bool b =>
          right
          exact ⟨by simp [jget, hrel, exbind_ok, exbind_err],
            by simp [vrChatId, sGet, hrel]⟩
        | arr xs =>
          right
          exact ⟨by simp [jget, hrel, exbind_ok, exbind_err],
            by simp [vrChatId, sGet, hrel]⟩
        | obj fr =>
          cases hch : fr.lookup "chat" with
          | none =>
            left
            simp [jget, hrel, hch, vrChatId, sGet, exbind_ok]
          | some c =>
            cases c with
            | null =>
              right
              exact ⟨by simp [jget, hrel, hch, exbind_ok, exbind_err],
                by simp [vrChatId, sGet, hrel, hch]⟩
            | str s =>
              right
              exact ⟨by simp [jget, hrel, hch, exbind_ok, exbind_err],
                by simp [vrChatId, sGet, hrel, hch]⟩
            | num n =>
              right
              exact ⟨by simp [jget, hrel, hch, exbind_ok, exbind_err],
                by simp [vrChatId, sGet, hrel, hch]⟩
            | bool b =>
              right
              exact ⟨by simp [jget, hrel, hch, exbind_ok, exbind_err],
                by simp [vrChatId, sGet, hrel, hch]⟩
            | arr xs =>
              right
              exact ⟨by simp [jget, hrel, hch, exbind_ok, exbind_err],
                by simp [vrChatId, sGet, hrel, hch]⟩
            | obj fc =>
              cases hd : fc.lookup "data" with
              | none =>
                left
                simp [jget, hrel, hch, hd, vrChatId, sGet, exbind_ok]
              | some d =>
                cases d with
                | null =>
                  right
                  exact ⟨by simp [jget, hrel, hch, hd, exbind_ok, exbind_err],
                    by simp [vrChatId, sGet, hrel, hch, hd]⟩
                | str s =>
                  right
                  exact ⟨by simp [jget, hrel, hch, hd, exbind_ok, exbind_err],
                    by simp [vrChatId, sGet, hrel, hch, hd]⟩
                | num n =>
                  right
                  exact ⟨by simp [jget, hrel, hch, hd, exbind_ok, exbind_err],
                    by simp [vrChatId, sGet, hrel, hch, hd]⟩
                | bool b =>
                  right
                  exact ⟨by simp [jget, hrel, hch, hd, exbind_ok, exbind_err],
                    by simp [vrChatId, sGet, hrel, hch, hd]⟩
                | arr xs =>
                  right
                  exact ⟨by simp [jget, hrel, hch, hd, exbind_ok, exbind_err],
                    by simp [vrChatId, sGet, hrel, hch, hd]⟩
                | obj fd =>
                  left
                  simp [jget, hrel, hch, hd, vrChatId, sGet, exbind_ok]

theorem core_with_items (fs : List (String × Json)) (items : List Json)
    (hinc : fs.lookup "included" = some (.arr items)) :
    extract_chat_id_core (Json.obj fs) =
      (scanChat items >>= fun r =>
        match r with
        | some i => pure i
        | none =>
          (vrIdOf (Json.obj fs) >>= fun vid =>
            if truthy vid then
              (scanVr vid items >>= fun r2 =>
                match r2 with
                | some ci => pure ci
                | none => pure Json.null)
            else pure Json.null)) := by
  simp only [extract_chat_id_core]
  rw [show jget (Json.obj fs) "included" (.arr []) = .ok (.arr items) from by simp [jget, hinc]]
  rfl

/-- C1: the chat-id extraction policy of `_extract_chat_id`, on
responses whose `included` array holds JSON objects (on other values the
Python loop raises and the caught exception yields no id, part four).
(a) If `included` holds a resource of type `chat` (first such being
`x`), the extraction returns the `id` field of `x`.
(b) If no resource of type `chat` is present and the primary resource
carries a truthy `vacancyResponse` relationship id matching an
`included` item `y` of type `vacancyResponse` (first match), it returns
the `relationships.chat.data.id` of `y`.
(c) If neither path produces an id — no chat resource and either the
relationship id is unreadable, falsy, or matches no item — it returns
no id.
(d) Any failing parse yields no id: the exception handler is total and
maps every internal failure to `None`, so the extraction never
raises. -/
theorem extract_chat_id_policy :
    (∀ (fs : List (String × Json)) (pre : List Json) (x : Json) (rest : List Json),
        fs.lookup "included" = some (.arr (pre ++ x :: rest)) →
        (∀ y ∈ pre, isObjB y = true ∧ sGet y "type" ≠ Json.str "chat") →
        isObjB x = true → sGet x "type" = Json.str "chat" →
        extract_chat_id (Json.obj fs) = sGet x "id") ∧
    (∀ (fs : List (String × Json)) (pre : List Json) (y : Json) (rest : List Json) (vid : Json),
        fs.lookup "included" = some (.arr (pre ++ y :: rest)) →
        (∀ z ∈ pre ++ y :: rest, isObjB z = true ∧ sGet z "type" ≠ Json.str "chat") →
        vrIdOf (Json.obj fs) = .ok vid → truthy vid = true →
        (∀ z ∈ pre, ¬(sGet z "type" = Json.str "vacancyResponse" ∧ sGet z "id" = vid)) →
        sGet y "type" = Json.str "vacancyResponse" → sGet y "id" = vid →
        extract_chat_id (Json.obj fs) = vrChatId y) ∧
    (∀ (fs : List (String × Json)) (items : List Json),
        fs.lookup "included" = some (.arr items) →
        (∀ z ∈ items, isObjB z = true ∧ sGet z "type" ≠ Json.str "chat") →
        (vrIdOf (Json.obj fs) = .error () ∨
          ∃ vid, vrIdOf (Json.obj fs) = .ok vid ∧
            (truthy vid = false ∨
              ∀ z ∈ items, ¬(sGet z "type" = Json.str "vacancyResponse" ∧ sGet z "id" = vid))) →
        extract_chat_id (Json.obj fs) = Json.null) ∧
    (∀ response, extract_chat_id_core response = .error () →
        extract_chat_id response = Json.null) := by
  refine ⟨?_, ?_, ?_, ?_⟩
  · intro fs pre x rest hinc hpre hx htx
    simp only [extract_chat_id]
    rw [core_with_items fs (pre ++ x :: rest) hinc,
      scanChat_found pre x rest hpre hx htx, exbind_ok]
    rfl
  · intro fs pre y rest vid hinc hall hvr htr hpre hty hidy
    have hy : isObjB y = true := (hall y (by simp)).1
    simp only [extract_chat_id]
    rw [core_with_items fs (pre ++ y :: rest) hinc, scanChat_none _ hall, exbind_ok]
    simp only []
    rw [hvr, exbind_ok, if_pos htr]
    have hpre2 : ∀ z ∈ pre, isObjB z = true ∧
        ¬(sGet z "type" = Json.str "vacancyResponse" ∧ sGet z "id" = vid) :=
      fun z hz => ⟨(hall z (by simp [hz])).1, hpre z hz⟩
    rcases scanVr_found vid pre y rest hpre2 hy hty hidy with hsv | ⟨hsv, hnull⟩
    · rw [hsv, exbind_ok]
      rfl
    · rw [hsv, exbind_err, hnull]
  · intro fs items hinc hall hdisj
    simp only [extract_chat_id]
    rw [core_with_items fs items hinc, scanChat_none _ hall, exbind_ok]
    simp only []
    rcases hdisj with hvr | ⟨vid, hvr, hcase⟩
    · rw [hvr, exbind_err]
    · rw [hvr, exbind_ok]
      rcases hcase with hf | hno
      · rw [if_neg (by simp [hf])]
        rfl
      · by_cases htv : truthy vid = true
        · rw [if_pos htv, scanVr_none vid items
            (fun z hz => ⟨(hall z hz).1, hno z hz⟩), exbind_ok]
          rfl
        · rw [if_neg htv]
          rfl
  · intro response h
    simp [extract_chat_id, h]

/-- Witness for C1 at a response whose `included` holds one chat
resource. -/
theorem extract_chat_id_policy_w :
    extract_chat_id
        (.obj [("included", .arr [.obj [("type", .str "chat"), ("id", .str "CW")]])]) =
      sGet (.obj [("type", .str "chat"), ("id", .str "CW")]) "id" :=
  extract_chat_id_policy.1
    [("included", .arr [.obj [("type", .str "chat"), ("id", .str "CW")]])]
    [] (.obj [("type", .str "chat"), ("id", .str "CW")]) []
    (by decide) (by simp) (by decide) (by decide)
